import Mathlib

/-!
# Config-drive metadata provider (`pkg/metadata/provider_configdrive.go`)

A shallow embedding of the config-drive provider of linuxkit's metadata
package, with the operating system and the `go-diskfs` library as explicit
collaborators.

Conventions of the embedding:

* A Go `string` is a Lean `String` (the sequence of its runes); only valid UTF-8
  strings are represented.
* A Go `[]byte` is a `Bytes`: the nil slice, or a non-nil slice with its content.
  The distinction matters: the constructor compares a slice with `nil`.
* A Go `error` is an `Option GoError`; `none` is `nil`.
* Calls that leave the process (temp-dir creation, mount, unmount, file reads,
  glob, disk open, filesystem lookup) answer from a host record and are appended
  to the trace of an explicit `World`, which also carries the mount table. A host
  answers a call from its arguments alone; the theorems hold for every host.
* Calls to `log.Debugf` have no effect on results or on the host and are left out.
-/

namespace ConfigDrive

/-! ## Go values -/

/-- One byte. -/
abbrev Byte := Fin 256

/-- A non-nil Go `error`, identified by its message. -/
abbrev GoError := String

/-- A Go `[]byte`: `null` is the nil slice, `slice d` a non-nil slice with content `d`. -/
inductive Bytes where
  | null : Bytes
  | slice (data : List Byte) : Bytes
deriving DecidableEq, Repr

/-- The content of a slice; the nil slice has no content. -/
def Bytes.content : Bytes → List Byte
  | .null => []
  | .slice d => d

/-- Go `len(b)`. -/
def Bytes.len (b : Bytes) : Nat := b.content.length

/-! ## Constants of the source file -/

def configDriveMetadataFile : String := "meta_data.json"

def configDriveUserdataFile : String := "user_data"

def configDriveNetworkdataFile : String := "network_data.json"

def configDriveCdromDevs : String := "/dev/sr[0-9]*"

def configDriveBlockDevs : String := "/sys/class/block/*"

/-- Linux `syscall.MS_RDONLY`. -/
def MS_RDONLY : Nat := 1

/-! ## The host: operating system and libraries -/

/-- Open modes of `go-diskfs`. -/
inductive OpenModeOption where
  | ReadOnly
  | ReadWriteExclusive
deriving DecidableEq, Repr

/-- A call that leaves the process, with its arguments. -/
inductive Call where
  | tempDir (dir pattern : String)
  | mount (source target fstype : String) (flags : Nat) (data : String)
  | readFile (filename : String)
  | unmount (target : String) (flags : Nat)
  | glob (pattern : String)
  | openWithMode (device : String) (mode : OpenModeOption)
  | getFilesystem (part : Nat)
deriving DecidableEq, Repr

/-- The observable state of the host: the mount table (most recent mount first, each
entry a source and a target) and the calls made so far, oldest first. -/
structure World where
  mounts : List (String × String)
  trace : List Call
deriving DecidableEq, Repr

/-- Append a call to the trace. -/
def World.log (w : World) (c : Call) : World :=
  { w with trace := w.trace ++ [c] }

/-- Whether something is mounted on `target`. -/
def World.isMounted (w : World) (target : String) : Bool :=
  w.mounts.any (fun m => m.2 == target)

/-- Remove the most recent mount on `target` from a mount table. -/
def eraseTop (target : String) : List (String × String) → List (String × String)
  | [] => []
  | m :: ms => if m.2 = target then ms else m :: eraseTop target ms

/-- The answers of the operating system (and of `path.Join`) used by the constructor. -/
structure MountHost where
  /-- The result of `ioutil.TempDir(dir, pattern)`: a name and an error. -/
  tempDir : String → String → String × Option GoError
  /-- The result of `syscall.Mount(source, target, fstype, flags, data)`. -/
  mount : String → String → String → Nat → String → Option GoError
  /-- The result of `ioutil.ReadFile(filename)`: a slice and an error. -/
  readFile : String → Bytes × Option GoError
  /-- The result of `syscall.Unmount(target, flags)`. -/
  unmount : String → Nat → Option GoError
  /-- The pure function `path.Join(elem...)`. -/
  pathJoin : List String → String

/-- The answers of `filepath.Glob` and of `go-diskfs` used by discovery; `D` is the type of
open disks and `F` the type of filesystems. -/
structure DiskHost (D F : Type) where
  /-- The result of `filepath.Glob(pattern)`: the matches and an error. -/
  glob : String → List String × Option GoError
  /-- The result of `diskfs.OpenWithMode(device, mode)`. -/
  openWithMode : String → OpenModeOption → Except GoError D
  /-- The result of `disk.GetFilesystem(part)`. -/
  getFilesystem : D → Nat → Except GoError F
  /-- The accessor `fs.Label()`. -/
  label : F → String

/-- The system call `syscall.Mount`: a successful mount is pushed on the mount table. -/
def sysMount (h : MountHost) (w : World) (source target fstype : String) (flags : Nat)
    (data : String) : Option GoError × World :=
  let w1 := w.log (.mount source target fstype flags data)
  match h.mount source target fstype flags data with
  | none => (none, { w1 with mounts := (source, target) :: w1.mounts })
  | some e => (some e, w1)

/-- The system call `syscall.Unmount`: a successful unmount removes the most recent mount on
the target. -/
def sysUnmount (h : MountHost) (w : World) (target : String) (flags : Nat) :
    Option GoError × World :=
  let w1 := w.log (.unmount target flags)
  match h.unmount target flags with
  | none => (none, { w1 with mounts := eraseTop target w1.mounts })
  | some e => (some e, w1)

/-! ## Go standard library functions used by discovery -/

/-- Go `strings.HasPrefix`. -/
def HasPrefix (s pre : String) : Bool :=
  pre.toList.isPrefixOf s.toList

/-- Go `unicode.IsSpace`: the Latin-1 cases and the `White_Space` table. -/
def IsSpace (r : Char) : Bool :=
  let n := r.toNat
  if n ≤ 0xFF then
    n == 0x09 || n == 0x0A || n == 0x0B || n == 0x0C || n == 0x0D || n == 0x20 ||
      n == 0x85 || n == 0xA0
  else
    n == 0x1680 || (0x2000 ≤ n && n ≤ 0x200A) || n == 0x2028 || n == 0x2029 ||
      n == 0x202F || n == 0x205F || n == 0x3000

/-- Go `strings.TrimSpace`: the string without its leading and trailing white space. -/
def TrimSpace (s : String) : String :=
  String.mk ((s.toList.dropWhile IsSpace).reverse.dropWhile IsSpace).reverse

/-- Go `filepath.Base` on a Unix host (separator `/`, no volume names). -/
def Base (path : String) : String :=
  if path = "" then "."
  else
    -- strip trailing slashes
    let stripped := (path.toList.reverse.dropWhile (fun c => c == '/')).reverse
    -- find the last element
    let last := (stripped.reverse.takeWhile (fun c => c != '/')).reverse
    -- if empty now, it had only slashes
    if last = [] then "/" else String.mk last

/-! ## The provider -/

/-- The type implementing the Provider interface for config drives. -/
structure ProviderConfigDrive where
  device : String
  mountPoint : String
  err : Option GoError
  userdata : Bytes
  metadata : Bytes
deriving DecidableEq, Repr

/-- The method `mount`: mounts the device under the mount point, read-only, as iso9660. -/
def ProviderConfigDrive.mount (p : ProviderConfigDrive) (h : MountHost) (w : World) :
    Option GoError × World :=
  sysMount h w p.device p.mountPoint "iso9660" MS_RDONLY ""

/-- The method `unmount`: removes the mount, dropping the error. -/
def ProviderConfigDrive.unmount (p : ProviderConfigDrive) (h : MountHost) (w : World) : World :=
  (sysUnmount h w p.mountPoint 0).2

/-- The method `String`. -/
def ProviderConfigDrive.String (p : ProviderConfigDrive) : String :=
  "ConfigDrive " ++ p.device

/-- The method `Probe`: checks if the drive has the right file. -/
def ProviderConfigDrive.Probe (p : ProviderConfigDrive) : Bool :=
  p.userdata.len != 0

/-- The method `Extract`: the userdata and the stored error. -/
def ProviderConfigDrive.Extract (p : ProviderConfigDrive) : Bytes × Option GoError :=
  (p.userdata, p.err)

/-- The constructor `NewConfigDrive`. -/
def NewConfigDrive (h : MountHost) (device : String) (w : World) :
    ProviderConfigDrive × World :=
  let (mountPoint, err) := h.tempDir "" "cd"
  let w := w.log (.tempDir "" "cd")
  let p : ProviderConfigDrive := ⟨device, mountPoint, err, .slice [], .slice []⟩
  if err = none then
    let (merr, w) := p.mount h w
    let p := { p with err := merr }
    if p.err = none then
      -- read the userdata
      let userdataFile := h.pathJoin [p.mountPoint, "openstack", "latest", configDriveUserdataFile]
      let (userdata, err) := h.readFile userdataFile
      let w := w.log (.readFile userdataFile)
      -- did we find a file?
      let p := if err = none ∧ userdata ≠ .null then { p with userdata := userdata } else p
      let p :=
        if p.userdata = .null then
          { p with err := some ("no userdata found in ./openstack/latest/" ++ configDriveUserdataFile) }
        else p
      -- read the metadata
      let metadataFile := h.pathJoin [p.mountPoint, "openstack", "latest", configDriveMetadataFile]
      let (metadata, err) := h.readFile metadataFile
      let w := w.log (.readFile metadataFile)
      -- did we find a file?
      let p := if err = none ∧ metadata ≠ .null then { p with metadata := metadata } else p
      let w := p.unmount h w
      (p, w)
    else (p, w)
  else (p, w)

/-- The slice a field holds after a read: the slice read when the read succeeded with a
non-nil slice, the initial empty slice otherwise. -/
def keptBytes (r : Bytes × Option GoError) : Bytes :=
  if r.2 = none ∧ r.1 ≠ .null then r.1 else .slice []

/-! ## Discovery -/

/-- The body of the loop of `FindConfigDrives` for one glob entry, on the devices found so far
and the world. -/
def findStep {D F : Type} (h : DiskHost D F) (st : List String × World) (device : String) :
    List String × World :=
  -- get the base device name
  let dev := Base device
  -- ignore loop and ram devices
  if HasPrefix dev "loop" || HasPrefix dev "ram" then st
  else
    let dev := "/dev/" ++ dev
    -- open readonly, ignore errors
    let w := st.2.log (.openWithMode dev .ReadOnly)
    match h.openWithMode dev .ReadOnly with
    | .error _ => (st.1, w)
    | .ok disk =>
      let w := w.log (.getFilesystem 0)
      match h.getFilesystem disk 0 with
      | .error _ => (st.1, w)
      | .ok fs =>
        -- get the label
        let label := TrimSpace (h.label fs)
        if label = "config-2" then (st.1 ++ [dev], w) else (st.1, w)

/-- The function `FindConfigDrives`: goes through all known devices and returns those with a
filesystem labelled config-2. A panic is the `error` result. -/
def FindConfigDrives {D F : Type} (h : DiskHost D F) (w : World) :
    Except String (List String) × World :=
  let (devs, err) := h.glob configDriveBlockDevs
  let w := w.log (.glob configDriveBlockDevs)
  if err ≠ none then
    -- Glob can only error on invalid pattern
    (.error ("Invalid glob pattern: " ++ configDriveBlockDevs), w)
  else
    let r := devs.foldl (findStep h) ([], w)
    (.ok r.1, r.2)

/-! ## Discovery as the specification words it -/

/-- The device path an entry contributes according to the specification: `/dev/` followed by
the base name, kept when the name is not loop- or ram-prefixed, the device opens read-only,
partition 0 has a filesystem and its trimmed label is `config-2`. -/
def specCandidate {D F : Type} (h : DiskHost D F) (entry : String) : Option String :=
  let name := Base entry
  if HasPrefix name "loop" = true ∨ HasPrefix name "ram" = true then none
  else
    match h.openWithMode ("/dev/" ++ name) .ReadOnly with
    | .error _ => none
    | .ok disk =>
      match h.getFilesystem disk 0 with
      | .error _ => none
      | .ok fs => if TrimSpace (h.label fs) = "config-2" then some ("/dev/" ++ name) else none

/-! ## Concrete hosts -/

/-- A world with nothing mounted and no call made. -/
def emptyWorld : World := ⟨[], []⟩

/-- The bytes of `#cloud-config\n`. -/
def cloudConfigBytes : List Byte :=
  [35, 99, 108, 111, 117, 100, 45, 99, 111, 110, 102, 105, 103, 10]

/-- A host where everything succeeds and the drive holds user-data and metadata. -/
def goodHost : MountHost where
  tempDir := fun _ _ => ("/tmp/cd123", none)
  mount := fun _ _ _ _ _ => none
  readFile := fun f =>
    if f = "/tmp/cd123/openstack/latest/user_data" then (.slice cloudConfigBytes, none)
    else if f = "/tmp/cd123/openstack/latest/meta_data.json" then (.slice [123, 125], none)
    else (.null, some "no such file or directory")
  unmount := fun _ _ => none
  pathJoin := fun elems => "/".intercalate elems

/-- A host where the drive mounts but holds only `meta_data.json`. -/
def noUserdataHost : MountHost where
  tempDir := fun _ _ => ("/tmp/cd123", none)
  mount := fun _ _ _ _ _ => none
  readFile := fun f =>
    if f = "/tmp/cd123/openstack/latest/meta_data.json" then (.slice [123, 125], none)
    else (.null, some "no such file or directory")
  unmount := fun _ _ => none
  pathJoin := fun elems => "/".intercalate elems

/-- A host where the mount is refused. -/
def mountDeniedHost : MountHost where
  tempDir := fun _ _ => ("/tmp/cd123", none)
  mount := fun _ _ _ _ _ => some "permission denied"
  readFile := fun _ => (.slice cloudConfigBytes, none)
  unmount := fun _ _ => none
  pathJoin := fun elems => "/".intercalate elems

/-- A host where no temporary directory can be created. -/
def noTempDirHost : MountHost where
  tempDir := fun _ _ => ("", some "no space left on device")
  mount := fun _ _ _ _ _ => none
  readFile := fun _ => (.slice cloudConfigBytes, none)
  unmount := fun _ _ => none
  pathJoin := fun elems => "/".intercalate elems

/-- A disk host with five block devices: a loop device and a ram disk labelled config-2, a
disk whose label has a trailing space, one with an upper-case label and one that does not
open. Open disks and filesystems are identified by the device path. -/
def sampleDisks : DiskHost String String where
  glob := fun _ =>
    (["/sys/class/block/loop0", "/sys/class/block/ram0", "/sys/class/block/sdb1",
      "/sys/class/block/sdz1", "/sys/class/block/sr0"], none)
  openWithMode := fun dev _ => if dev = "/dev/sr0" then .error "no medium found" else .ok dev
  getFilesystem := fun d _ => .ok d
  label := fun f =>
    if f = "/dev/sdb1" then "config-2 " else if f = "/dev/sdz1" then "CONFIG-2" else "config-2"

/-! ## The constructor, case by case -/

/-- When the temporary directory cannot be created nothing else runs. -/
theorem NewConfigDrive_of_tempDir_error (h : MountHost) (device : String) (w : World)
    (mp : String) (e : GoError) (ht : h.tempDir "" "cd" = (mp, some e)) :
    NewConfigDrive h device w =
      (⟨device, mp, some e, .slice [], .slice []⟩, ⟨w.mounts, w.trace ++ [.tempDir "" "cd"]⟩) := by
  simp [NewConfigDrive, ht, World.log]

/-- When the mount fails the constructor stops after the mount call. -/
theorem NewConfigDrive_of_mount_error (h : MountHost) (device : String) (w : World)
    (mp : String) (e : GoError) (ht : h.tempDir "" "cd" = (mp, none))
    (hm : h.mount device mp "iso9660" MS_RDONLY "" = some e) :
    NewConfigDrive h device w =
      (⟨device, mp, some e, .slice [], .slice []⟩,
        ⟨w.mounts, w.trace ++ [.tempDir "" "cd", .mount device mp "iso9660" MS_RDONLY ""]⟩) := by
  simp [NewConfigDrive, ht, ProviderConfigDrive.mount, sysMount, hm, World.log]

/-- When the mount succeeds both files are read, the mount is removed and no error is stored. -/
theorem NewConfigDrive_of_mount_ok (h : MountHost) (device : String) (w : World)
    (mp : String) (ht : h.tempDir "" "cd" = (mp, none))
    (hm : h.mount device mp "iso9660" MS_RDONLY "" = none) :
    (NewConfigDrive h device w).1 =
      ⟨device, mp, none,
        keptBytes (h.readFile (h.pathJoin [mp, "openstack", "latest", configDriveUserdataFile])),
        keptBytes (h.readFile (h.pathJoin [mp, "openstack", "latest", configDriveMetadataFile]))⟩
    ∧ (NewConfigDrive h device w).2 =
      (sysUnmount h
        ⟨(device, mp) :: w.mounts,
          w.trace ++ [.tempDir "" "cd", .mount device mp "iso9660" MS_RDONLY "",
            .readFile (h.pathJoin [mp, "openstack", "latest", configDriveUserdataFile]),
            .readFile (h.pathJoin [mp, "openstack", "latest", configDriveMetadataFile])]⟩
        mp 0).2 := by
  obtain ⟨td, mt, rf, um, pj⟩ := h
  simp only at ht hm
  rcases hu : rf (pj [mp, "openstack", "latest", configDriveUserdataFile]) with ⟨ud, ue⟩
  rcases hmd : rf (pj [mp, "openstack", "latest", configDriveMetadataFile]) with ⟨md, me⟩
  by_cases c1 : ue = none ∧ ud ≠ .null <;> by_cases c2 : me = none ∧ md ≠ .null <;>
    simp [NewConfigDrive, ht, ProviderConfigDrive.mount, sysMount, hm, World.log, hu, hmd,
      keptBytes, ProviderConfigDrive.unmount, c1, c2]

/-! ## Properties of the provider -/

/-- C1 (the code at the failing input): on a drive that mounts, has no
`openstack/latest/user_data` and has a readable `meta_data.json`, the provider built by
`NewConfigDrive` has `Probe` false, but `Extract` returns the empty non-nil slice with a nil
error: the check `p.userdata == nil` never fires, because the field starts as `[]byte{}`. -/
theorem NewConfigDrive_missing_userdata_stores_no_error :
    (NewConfigDrive noUserdataHost "/dev/sr0" emptyWorld).1.Probe = false ∧
    (NewConfigDrive noUserdataHost "/dev/sr0" emptyWorld).1.Extract = (.slice [], none) ∧
    (NewConfigDrive noUserdataHost "/dev/sr0" emptyWorld).1.metadata = .slice [123, 125] := by
  decide

/-- C2: when temp-dir creation and the mount succeed and the read of
`openstack/latest/user_data` succeeds with a slice `d`, the bytes `Extract` returns have
exactly the content of `d`, and are `d` itself unless `d` is the nil slice, whatever the read of
`meta_data.json` gives. -/
theorem NewConfigDrive_extract_returns_userdata (h : MountHost) (device : String) (w : World)
    (mp : String) (d : Bytes) (ht : h.tempDir "" "cd" = (mp, none))
    (hm : h.mount device mp "iso9660" MS_RDONLY "" = none)
    (hr : h.readFile (h.pathJoin [mp, "openstack", "latest", configDriveUserdataFile])
      = (d, none)) :
    (NewConfigDrive h device w).1.Extract.1.content = d.content ∧
    (d = .null ∨ (NewConfigDrive h device w).1.Extract.1 = d) := by
  have hp := (NewConfigDrive_of_mount_ok h device w mp ht hm).1
  rw [hr] at hp
  cases d <;> simp [hp, ProviderConfigDrive.Extract, keptBytes, Bytes.content]

/-- C2 at a concrete host: the drive holds `#cloud-config\n`. -/
theorem NewConfigDrive_extract_returns_userdata_witness :
    (NewConfigDrive goodHost "/dev/sr0" emptyWorld).1.Extract.1.content = cloudConfigBytes ∧
    (Bytes.slice cloudConfigBytes = .null ∨
      (NewConfigDrive goodHost "/dev/sr0" emptyWorld).1.Extract.1 = .slice cloudConfigBytes) :=
  NewConfigDrive_extract_returns_userdata goodHost "/dev/sr0" emptyWorld "/tmp/cd123"
    (.slice cloudConfigBytes) (by decide) (by decide) (by decide)

/-- C3: when temp-dir creation succeeds and the mount fails with `e`, `NewConfigDrive` returns
a provider after exactly the temp-dir and mount calls (no file read, no unmount), the mount
table is unchanged, `Probe` is false and `Extract` returns the empty slice with the error `e`. -/
theorem NewConfigDrive_mount_failure (h : MountHost) (device : String) (w : World)
    (mp : String) (e : GoError) (ht : h.tempDir "" "cd" = (mp, none))
    (hm : h.mount device mp "iso9660" MS_RDONLY "" = some e) :
    (NewConfigDrive h device w).2.trace =
      w.trace ++ [.tempDir "" "cd", .mount device mp "iso9660" MS_RDONLY ""] ∧
    (NewConfigDrive h device w).2.mounts = w.mounts ∧
    (NewConfigDrive h device w).1.Probe = false ∧
    (NewConfigDrive h device w).1.Extract = (.slice [], some e) := by
  rw [NewConfigDrive_of_mount_error h device w mp e ht hm]
  simp [ProviderConfigDrive.Probe, ProviderConfigDrive.Extract, Bytes.len, Bytes.content]

/-- C3 at a concrete host: the mount is refused with a permission error. -/
theorem NewConfigDrive_mount_failure_witness :
    (NewConfigDrive mountDeniedHost "/dev/sr0" emptyWorld).2.trace =
      emptyWorld.trace ++
        [.tempDir "" "cd", .mount "/dev/sr0" "/tmp/cd123" "iso9660" MS_RDONLY ""] ∧
    (NewConfigDrive mountDeniedHost "/dev/sr0" emptyWorld).2.mounts = emptyWorld.mounts ∧
    (NewConfigDrive mountDeniedHost "/dev/sr0" emptyWorld).1.Probe = false ∧
    (NewConfigDrive mountDeniedHost "/dev/sr0" emptyWorld).1.Extract =
      (.slice [], some "permission denied") :=
  NewConfigDrive_mount_failure mountDeniedHost "/dev/sr0" emptyWorld "/tmp/cd123"
    "permission denied" (by decide) (by decide)

/-- C4: when creating the temporary directory fails with `e`, `NewConfigDrive` returns a
provider after exactly the temp-dir call (no mount, no file read, no unmount), with `Probe`
false, empty userdata and metadata, and `Extract` returning the error `e`. -/
theorem NewConfigDrive_tempDir_failure (h : MountHost) (device : String) (w : World)
    (mp : String) (e : GoError) (ht : h.tempDir "" "cd" = (mp, some e)) :
    (NewConfigDrive h device w).2.trace = w.trace ++ [.tempDir "" "cd"] ∧
    (NewConfigDrive h device w).2.mounts = w.mounts ∧
    (NewConfigDrive h device w).1.Probe = false ∧
    (NewConfigDrive h device w).1.userdata = .slice [] ∧
    (NewConfigDrive h device w).1.metadata = .slice [] ∧
    (NewConfigDrive h device w).1.Extract = (.slice [], some e) := by
  rw [NewConfigDrive_of_tempDir_error h device w mp e ht]
  simp [ProviderConfigDrive.Probe, ProviderConfigDrive.Extract, Bytes.len, Bytes.content]

/-- C4 at a concrete host: no temporary directory can be created. -/
theorem NewConfigDrive_tempDir_failure_witness :
    (NewConfigDrive noTempDirHost "/dev/sr0" emptyWorld).2.trace =
      emptyWorld.trace ++ [.tempDir "" "cd"] ∧
    (NewConfigDrive noTempDirHost "/dev/sr0" emptyWorld).2.mounts = emptyWorld.mounts ∧
    (NewConfigDrive noTempDirHost "/dev/sr0" emptyWorld).1.Probe = false ∧
    (NewConfigDrive noTempDirHost "/dev/sr0" emptyWorld).1.userdata = .slice [] ∧
    (NewConfigDrive noTempDirHost "/dev/sr0" emptyWorld).1.metadata = .slice [] ∧
    (NewConfigDrive noTempDirHost "/dev/sr0" emptyWorld).1.Extract =
      (.slice [], some "no space left on device") :=
  NewConfigDrive_tempDir_failure noTempDirHost "/dev/sr0" emptyWorld ""
    "no space left on device" (by decide)

/-- C6: `Probe` is true exactly when the userdata has at least one byte, and its value is the
same for any device, mount point, stored error and metadata. -/
theorem Probe_iff_userdata_nonempty (p : ProviderConfigDrive) :
    (p.Probe = true ↔ p.userdata.content ≠ []) ∧
    ∀ (device mountPoint : String) (err : Option GoError) (metadata : Bytes),
      (ProviderConfigDrive.mk device mountPoint err p.userdata metadata).Probe = p.Probe := by
  simp [ProviderConfigDrive.Probe, Bytes.len]

/-- Removing the most recent mount on a target undoes a mount on that target. -/
theorem eraseTop_cons_self (source target : String) (ms : List (String × String)) :
    eraseTop target ((source, target) :: ms) = ms := by
  simp [eraseTop]

/-- C5: when the unmount call on the mount point succeeds and the mount point is not mounted
beforehand, then for every outcome of temp-dir creation, mount and the two reads the mount
point of the provider is not mounted when `NewConfigDrive` returns and the mount table is the
one before the call; the calls made are the temp-dir call alone when it fails, the temp-dir
and mount calls when the mount fails, and otherwise temp-dir, mount, the two reads and then
the unmount of the same mount point. -/
theorem NewConfigDrive_leaves_nothing_mounted (h : MountHost) (device : String) (w : World)
    (hu : h.unmount (h.tempDir "" "cd").1 0 = none)
    (hfresh : w.isMounted (h.tempDir "" "cd").1 = false) :
    (NewConfigDrive h device w).2.isMounted (NewConfigDrive h device w).1.mountPoint = false ∧
    (NewConfigDrive h device w).2.mounts = w.mounts ∧
    (NewConfigDrive h device w).2.trace = w.trace ++
      (if (h.tempDir "" "cd").2 = none then
        if h.mount device (h.tempDir "" "cd").1 "iso9660" MS_RDONLY "" = none then
          [.tempDir "" "cd", .mount device (h.tempDir "" "cd").1 "iso9660" MS_RDONLY "",
            .readFile (h.pathJoin
              [(h.tempDir "" "cd").1, "openstack", "latest", configDriveUserdataFile]),
            .readFile (h.pathJoin
              [(h.tempDir "" "cd").1, "openstack", "latest", configDriveMetadataFile]),
            .unmount (h.tempDir "" "cd").1 0]
        else [.tempDir "" "cd", .mount device (h.tempDir "" "cd").1 "iso9660" MS_RDONLY ""]
      else [.tempDir "" "cd"]) := by
  rcases ht : h.tempDir "" "cd" with ⟨mp, terr⟩
  rw [ht] at hu hfresh
  simp only at hu hfresh
  cases terr with
  | some e =>
    rw [NewConfigDrive_of_tempDir_error h device w mp e ht]
    simpa [World.isMounted] using hfresh
  | none =>
    cases hm : h.mount device mp "iso9660" MS_RDONLY "" with
    | some e =>
      rw [NewConfigDrive_of_mount_error h device w mp e ht hm]
      simpa [World.isMounted] using hfresh
    | none =>
      obtain ⟨hp, hw⟩ := NewConfigDrive_of_mount_ok h device w mp ht hm
      rw [hp, hw]
      simp only [sysUnmount, hu, World.log, eraseTop_cons_self]
      simpa [World.isMounted] using hfresh

/-- C5 at a concrete host: everything succeeds, nothing was mounted before. -/
theorem NewConfigDrive_leaves_nothing_mounted_witness :
    (NewConfigDrive goodHost "/dev/sr0" emptyWorld).2.isMounted
      (NewConfigDrive goodHost "/dev/sr0" emptyWorld).1.mountPoint = false ∧
    (NewConfigDrive goodHost "/dev/sr0" emptyWorld).2.mounts = [] ∧
    (NewConfigDrive goodHost "/dev/sr0" emptyWorld).2.trace =
      [.tempDir "" "cd", .mount "/dev/sr0" "/tmp/cd123" "iso9660" 1 "",
        .readFile "/tmp/cd123/openstack/latest/user_data",
        .readFile "/tmp/cd123/openstack/latest/meta_data.json",
        .unmount "/tmp/cd123" 0] :=
  NewConfigDrive_leaves_nothing_mounted goodHost "/dev/sr0" emptyWorld (by decide) (by decide)

/-- C10: for every outcome of temp-dir creation, mount and the two reads, the provider built by
`NewConfigDrive` does not have both a non-empty userdata and a non-nil error: `Probe` is false
or the error of `Extract` is nil, and the error of `Extract` is nil or its bytes are empty. -/
theorem NewConfigDrive_not_both_userdata_and_error (h : MountHost) (device : String)
    (w : World) :
    ((NewConfigDrive h device w).1.Probe = false ∨
      (NewConfigDrive h device w).1.Extract.2 = none) ∧
    ((NewConfigDrive h device w).1.Extract.2 = none ∨
      (NewConfigDrive h device w).1.Extract.1.content = []) := by
  rcases ht : h.tempDir "" "cd" with ⟨mp, terr⟩
  cases terr with
  | some e =>
    rw [NewConfigDrive_of_tempDir_error h device w mp e ht]
    simp [ProviderConfigDrive.Probe, ProviderConfigDrive.Extract, Bytes.len, Bytes.content]
  | none =>
    cases hm : h.mount device mp "iso9660" MS_RDONLY "" with
    | some e =>
      rw [NewConfigDrive_of_mount_error h device w mp e ht hm]
      simp [ProviderConfigDrive.Probe, ProviderConfigDrive.Extract, Bytes.len, Bytes.content]
    | none =>
      rw [(NewConfigDrive_of_mount_ok h device w mp ht hm).1]
      simp [ProviderConfigDrive.Extract]

/-! ## Properties of discovery -/

/-- Prepending the same string is injective. -/
theorem append_left_cancel_string (a b c : String) (h : a ++ b = a ++ c) : b = c := by
  have h1 : (a ++ b).data = (a ++ c).data := by rw [h]
  simp only [String.data_append] at h1
  exact String.ext (List.append_cancel_left h1)

/-- One pass of the loop body appends what the specification keeps for the entry. -/
theorem findStep_fst {D F : Type} (h : DiskHost D F) (st : List String × World)
    (entry : String) :
    (findStep h st entry).1 = st.1 ++ (specCandidate h entry).toList := by
  obtain ⟨g, o, gf, lb⟩ := h
  unfold findStep specCandidate
  by_cases hl : HasPrefix (Base entry) "loop" = true
  · simp [hl]
  · by_cases hr : HasPrefix (Base entry) "ram" = true
    · simp [hr]
    · simp only [hl, hr, Bool.or_self, Bool.false_eq_true, if_false, or_self]
      cases ho : o ("/dev/" ++ Base entry) .ReadOnly with
      | error e => simp
      | ok disk =>
        cases hf : gf disk 0 with
        | error e => simp [hf]
        | ok fs =>
          by_cases hlab : TrimSpace (lb fs) = "config-2" <;> simp [hf, hlab]

/-- The loop appends, in order, what the specification keeps for each entry. -/
theorem foldl_findStep_fst {D F : Type} (h : DiskHost D F) (devs : List String)
    (st : List String × World) :
    (devs.foldl (findStep h) st).1 = st.1 ++ devs.filterMap (specCandidate h) := by
  induction devs generalizing st with
  | nil => simp
  | cons e rest ih =>
    rw [List.foldl_cons, ih, findStep_fst]
    cases hc : specCandidate h e <;> simp [List.filterMap_cons, hc]

/-- An entry kept by the specification has a name without loop or ram in front, opens, has a
filesystem on partition 0 and a trimmed label `config-2`. -/
theorem specCandidate_eq_some {D F : Type} (h : DiskHost D F) (entry path : String)
    (hc : specCandidate h entry = some path) :
    path = "/dev/" ++ Base entry ∧ HasPrefix (Base entry) "loop" = false ∧
    HasPrefix (Base entry) "ram" = false ∧
    ∃ disk fs, h.openWithMode ("/dev/" ++ Base entry) .ReadOnly = .ok disk ∧
      h.getFilesystem disk 0 = .ok fs ∧ TrimSpace (h.label fs) = "config-2" := by
  unfold specCandidate at hc
  by_cases hl : HasPrefix (Base entry) "loop" = true
  · simp [hl] at hc
  · by_cases hr : HasPrefix (Base entry) "ram" = true
    · simp [hr] at hc
    · simp only [hl, hr, or_self, if_false] at hc
      cases ho : h.openWithMode ("/dev/" ++ Base entry) .ReadOnly with
      | error e => simp [ho] at hc
      | ok disk =>
        cases hf : h.getFilesystem disk 0 with
        | error e => simp [ho, hf] at hc
        | ok fs =>
          by_cases hlab : TrimSpace (h.label fs) = "config-2"
          · simp [ho, hf, hlab] at hc
            exact ⟨hc.symm, by simpa using hl, by simpa using hr, disk, fs, rfl, hf, hlab⟩
          · simp [ho, hf, hlab] at hc

/-- The calls of the loop: the mount table is untouched, and every open is for a device whose
name does not start with loop or ram. -/
theorem foldl_findStep_snd {D F : Type} (h : DiskHost D F) (devs : List String)
    (st : List String × World) :
    ∃ calls, (devs.foldl (findStep h) st).2 = ⟨st.2.mounts, st.2.trace ++ calls⟩ ∧
      ∀ name mode, Call.openWithMode ("/dev/" ++ name) mode ∈ calls →
        HasPrefix name "loop" = false ∧ HasPrefix name "ram" = false := by
  induction devs generalizing st with
  | nil => exact ⟨[], by simp, by simp⟩
  | cons e rest ih =>
    rw [List.foldl_cons]
    obtain ⟨calls, hw, hcalls⟩ := ih (findStep h st e)
    by_cases hl : HasPrefix (Base e) "loop" = true
    · refine ⟨calls, ?_, hcalls⟩
      rw [hw]
      simp [findStep, hl]
    · by_cases hr : HasPrefix (Base e) "ram" = true
      · refine ⟨calls, ?_, hcalls⟩
        rw [hw]
        simp [findStep, hr]
      · have key : ∀ name mode (extra : List Call),
            (∀ c ∈ extra, c = .openWithMode ("/dev/" ++ Base e) .ReadOnly ∨ c = .getFilesystem 0) →
            Call.openWithMode ("/dev/" ++ name) mode ∈ extra ++ calls →
            HasPrefix name "loop" = false ∧ HasPrefix name "ram" = false := by
          intro name mode extra hex hmem
          rcases List.mem_append.mp hmem with hm | hm
          · rcases hex _ hm with heq | heq
            · injection heq with hdev _
              have hn : name = Base e := append_left_cancel_string _ _ _ hdev
              subst hn
              exact ⟨by simpa using hl, by simpa using hr⟩
            · cases heq
          · exact hcalls name mode hm
        cases ho : h.openWithMode ("/dev/" ++ Base e) .ReadOnly with
        | error err =>
          refine ⟨[.openWithMode ("/dev/" ++ Base e) .ReadOnly] ++ calls, ?_, ?_⟩
          · rw [hw]
            simp [findStep, hl, hr, ho, World.log]
          · intro name mode hmem
            exact key name mode _ (by simp) hmem
        | ok disk =>
          refine ⟨[.openWithMode ("/dev/" ++ Base e) .ReadOnly, .getFilesystem 0] ++ calls,
            ?_, ?_⟩
          · rw [hw]
            cases hf : h.getFilesystem disk 0 with
            | error err => simp [findStep, hl, hr, ho, hf, World.log]
            | ok fs =>
              by_cases hlab : TrimSpace (h.label fs) = "config-2" <;>
                simp [findStep, hl, hr, ho, hf, hlab, World.log]
          · intro name mode hmem
            exact key name mode _ (by simp) hmem

/-- When the glob succeeds `FindConfigDrives` runs the loop from the empty list. -/
theorem FindConfigDrives_of_glob_ok {D F : Type} (h : DiskHost D F) (w : World)
    (devs : List String) (hg : h.glob configDriveBlockDevs = (devs, none)) :
    FindConfigDrives h w =
      (.ok (devs.foldl (findStep h) ([], w.log (.glob configDriveBlockDevs))).1,
        (devs.foldl (findStep h) ([], w.log (.glob configDriveBlockDevs))).2) := by
  simp [FindConfigDrives, hg]

/-- C7: for a glob entry whose base name does not start with loop or ram, whose device opens
read-only and has a filesystem on partition 0, the result of `FindConfigDrives` contains
`/dev/` followed by the base name exactly when the label with surrounding white space
trimmed is `config-2`; the label `config-2` followed by a space trims to `config-2`, and the
upper-case label `CONFIG-2` does not. -/
theorem FindConfigDrives_includes_iff_label {D F : Type} (h : DiskHost D F) (w : World)
    (devs : List String) (entry : String) (disk : D) (fs : F)
    (hg : h.glob configDriveBlockDevs = (devs, none)) (hmem : entry ∈ devs)
    (hl : HasPrefix (Base entry) "loop" = false) (hr : HasPrefix (Base entry) "ram" = false)
    (ho : h.openWithMode ("/dev/" ++ Base entry) .ReadOnly = .ok disk)
    (hf : h.getFilesystem disk 0 = .ok fs) :
    (∃ found, (FindConfigDrives h w).1 = .ok found ∧
      ("/dev/" ++ Base entry ∈ found ↔ TrimSpace (h.label fs) = "config-2")) ∧
    TrimSpace "config-2 " = "config-2" ∧ TrimSpace "CONFIG-2" ≠ "config-2" := by
  refine ⟨⟨_, by rw [FindConfigDrives_of_glob_ok h w devs hg], ?_⟩, by decide, by decide⟩
  rw [foldl_findStep_fst, List.nil_append, List.mem_filterMap]
  constructor
  · rintro ⟨other, _, hc⟩
    obtain ⟨hpath, _, _, disk2, fs2, ho2, hf2, hlab⟩ := specCandidate_eq_some h other _ hc
    rw [← hpath, ho] at ho2
    injection ho2 with hd
    subst hd
    rw [hf] at hf2
    injection hf2 with hfs
    subst hfs
    exact hlab
  · intro hlab
    refine ⟨entry, hmem, ?_⟩
    simp [specCandidate, hl, hr, ho, hf, hlab]

/-- C7 at a concrete host: the device `sdb1` carries the label `config-2` followed by a space. -/
theorem FindConfigDrives_includes_iff_label_witness :
    (∃ found, (FindConfigDrives sampleDisks emptyWorld).1 = .ok found ∧
      ("/dev/" ++ Base "/sys/class/block/sdb1" ∈ found ↔
        TrimSpace (sampleDisks.label "/dev/sdb1") = "config-2")) ∧
    TrimSpace "config-2 " = "config-2" ∧ TrimSpace "CONFIG-2" ≠ "config-2" :=
  FindConfigDrives_includes_iff_label sampleDisks emptyWorld
    ["/sys/class/block/loop0", "/sys/class/block/ram0", "/sys/class/block/sdb1",
      "/sys/class/block/sdz1", "/sys/class/block/sr0"]
    "/sys/class/block/sdb1" "/dev/sdb1" "/dev/sdb1"
    (by decide) (by decide) (by decide) (by decide) rfl rfl

/-- C8: a glob entry whose base name starts with loop or ram leaves the loop state as it is
(nothing appended, no call made), whatever the host answers for its device; the result of
`FindConfigDrives` does not contain its device path and the calls made after the glob contain
no open of that path. -/
theorem FindConfigDrives_skips_loop_and_ram {D F : Type} (h : DiskHost D F) (w : World)
    (devs : List String) (entry : String)
    (hg : h.glob configDriveBlockDevs = (devs, none))
    (hp : HasPrefix (Base entry) "loop" = true ∨ HasPrefix (Base entry) "ram" = true) :
    (∀ st, findStep h st entry = st) ∧
    ∃ found calls,
      FindConfigDrives h w =
        (.ok found, ⟨w.mounts, w.trace ++ .glob configDriveBlockDevs :: calls⟩) ∧
      "/dev/" ++ Base entry ∉ found ∧
      ∀ mode, Call.openWithMode ("/dev/" ++ Base entry) mode ∉ calls := by
  constructor
  · intro st
    rcases hp with hp | hp <;> simp [findStep, hp]
  · obtain ⟨calls, hw, hcalls⟩ :=
      foldl_findStep_snd h devs ([], w.log (.glob configDriveBlockDevs))
    refine ⟨(devs.foldl (findStep h) ([], w.log (.glob configDriveBlockDevs))).1, calls,
      ?_, ?_, ?_⟩
    · rw [FindConfigDrives_of_glob_ok h w devs hg, hw]
      simp [World.log]
    · rw [foldl_findStep_fst, List.nil_append, List.mem_filterMap]
      rintro ⟨other, _, hc⟩
      obtain ⟨hpath, hl, hr, _⟩ := specCandidate_eq_some h other _ hc
      have hb : Base entry = Base other := append_left_cancel_string _ _ _ hpath
      rw [hb] at hp
      rcases hp with hp | hp
      · rw [hl] at hp
        cases hp
      · rw [hr] at hp
        cases hp
    · intro mode hmem
      obtain ⟨hl, hr⟩ := hcalls (Base entry) mode hmem
      rcases hp with hp | hp
      · rw [hl] at hp
        cases hp
      · rw [hr] at hp
        cases hp

/-- C8 at a concrete host: the loop device is labelled `config-2` and would open. -/
theorem FindConfigDrives_skips_loop_and_ram_witness :
    (∀ st, findStep sampleDisks st "/sys/class/block/loop0" = st) ∧
    ∃ found calls,
      FindConfigDrives sampleDisks emptyWorld =
        (.ok found, ⟨emptyWorld.mounts,
          emptyWorld.trace ++ .glob configDriveBlockDevs :: calls⟩) ∧
      "/dev/" ++ Base "/sys/class/block/loop0" ∉ found ∧
      ∀ mode, Call.openWithMode ("/dev/" ++ Base "/sys/class/block/loop0") mode ∉ calls :=
  FindConfigDrives_skips_loop_and_ram sampleDisks emptyWorld
    ["/sys/class/block/loop0", "/sys/class/block/ram0", "/sys/class/block/sdb1",
      "/sys/class/block/sdz1", "/sys/class/block/sr0"]
    "/sys/class/block/loop0" (by decide) (Or.inl (by decide))

/-- C9: when the glob succeeds with the list `devs`, `FindConfigDrives` returns without panic
the order-preserving filter-map of `devs` under `specCandidate`: each entry gives `/dev/`
followed by its base name when the name is not loop- or ram-prefixed, the device opens, has
a filesystem on partition 0 and a trimmed label `config-2`, and nothing otherwise; and the
mount table is left as it was. -/
theorem FindConfigDrives_eq_filterMap {D F : Type} (h : DiskHost D F) (w : World)
    (devs : List String) (hg : h.glob configDriveBlockDevs = (devs, none)) :
    (FindConfigDrives h w).1 = .ok (devs.filterMap (specCandidate h)) ∧
    (FindConfigDrives h w).2.mounts = w.mounts := by
  obtain ⟨calls, hw, _⟩ := foldl_findStep_snd h devs ([], w.log (.glob configDriveBlockDevs))
  rw [FindConfigDrives_of_glob_ok h w devs hg, foldl_findStep_fst, hw]
  simp [World.log]

/-- C9 at a concrete host: of five block devices only `sdb1` is kept. -/
theorem FindConfigDrives_eq_filterMap_witness :
    (FindConfigDrives sampleDisks emptyWorld).1 =
      .ok (["/sys/class/block/loop0", "/sys/class/block/ram0", "/sys/class/block/sdb1",
        "/sys/class/block/sdz1", "/sys/class/block/sr0"].filterMap
          (specCandidate sampleDisks)) ∧
    (FindConfigDrives sampleDisks emptyWorld).2.mounts = emptyWorld.mounts :=
  FindConfigDrives_eq_filterMap sampleDisks emptyWorld
    ["/sys/class/block/loop0", "/sys/class/block/ram0", "/sys/class/block/sdb1",
      "/sys/class/block/sdz1", "/sys/class/block/sr0"] (by decide)

end ConfigDrive
